import Mathlib

/-!
Verification of the shape-classification core of
`video_annotation_shape_detection.py` (functions `detect_shape` and
`is_arrow`).

The repository's own logic is embedded faithfully; the OpenCV primitives
it calls (`findContours`, `contourArea`, `arcLength`, `approxPolyDP`,
`convexHull`, `convexityDefects` and the raster preprocessing) are
external library functions and appear as an abstract record `CvOps` of
operations, so every theorem quantifies over what the library may return.

Numeric modelling: the Python code computes Euclidean norms of integer
point differences as floats and tests
`arccos((b^2 + c^2 - a^2) / (2*b*c)) * 180/pi <= 90`.
Over the reals this predicate is equivalent to
`b > 0 and c > 0 and b^2 + c^2 - a^2 >= 0` (arccos is decreasing and
`angle <= 90` iff its cosine is `>= 0`); when `b = 0` or `c = 0` the
NumPy division yields NaN/inf, `arccos` yields NaN, and `NaN <= 90` is
`False`, so the defect is not counted and no exception is raised.  The
squared norms are exact integers, so the test is embedded in exact
integer arithmetic as `0 < b2 ∧ 0 < c2 ∧ a2 ≤ b2 + c2`.
-/

namespace VideoShapes

/-- A 2-D integer point, as stored in an OpenCV contour. -/
abbrev Pt := ℤ × ℤ

/-- A contour: ordered list of integer points (`contour[i][0]` in the
source). -/
abbrev Contour := List Pt

/-- One convexity defect `(s, e, f, d)`: start index, end index,
farthest-point index, depth (depth is unused by `is_arrow`). -/
structure Defect where
  s : ℕ
  e : ℕ
  f : ℕ
  d : ℕ
deriving Repr, DecidableEq

/-- Squared Euclidean distance between two integer points; exact value of
`np.linalg.norm(p - q) ** 2`. -/
def sqDist (p q : Pt) : ℤ :=
  (p.1 - q.1) ^ 2 + (p.2 - q.2) ^ 2

/-- The squared triangle edge lengths `(a², b², c²)` of a defect, where
`a = |start − end|`, `b = |start − far|`, `c = |end − far|`
(lines 222–224 of the source).  Indices are read with a default point,
mirroring that cv2 always produces in-range indices. -/
def defectEdges (contour : Contour) (df : Defect) : ℤ × ℤ × ℤ :=
  let st := contour.getD df.s (0, 0)
  let en := contour.getD df.e (0, 0)
  let fr := contour.getD df.f (0, 0)
  (sqDist st en, sqDist st fr, sqDist en fr)

/-- Whether a defect's included angle at the farthest point is `≤ 90°`:
the exact-arithmetic embedding of
`arccos((b²+c²−a²)/(2bc)) * 180/π ≤ 90` (line 225/228 of the source).
When `b = 0` or `c = 0` the NumPy expression evaluates to NaN and the
comparison is `False`, hence the conjuncts `0 < b2` and `0 < c2`. -/
def defectSharp (contour : Contour) (df : Defect) : Bool :=
  let edges := defectEdges contour df
  decide (0 < edges.2.1) && decide (0 < edges.2.2) &&
    decide (edges.1 ≤ edges.2.1 + edges.2.2)

/-- The defect-counting loop of `is_arrow` (lines 217–233): walk the
defects, incrementing `count` at each sharp one, returning `true` as soon
as `count > 1`, and `false` when the list is exhausted. -/
def arrowLoop (contour : Contour) : List Defect → ℕ → Bool
  | [], _ => false
  | df :: rest, count =>
      let count' := if defectSharp contour df then count + 1 else count
      if 1 < count' then true else arrowLoop contour rest count'

/-- Abstract record of the OpenCV operations used by the source.
`Canvas` is the BGR canvas type, `Gray` the single-channel image type;
the no-contour case of `convexityDefects` is `none` (`defects is None`). -/
structure CvOps (Canvas Gray : Type) where
  cvtColorGray : Canvas → Gray
  gaussianBlur : Gray → Gray
  canny : Gray → Gray
  findContours : Gray → List Contour
  contourArea : Contour → ℚ
  arcLength : Contour → ℚ
  approxPolyDP : Contour → ℚ → List Pt
  convexHull : Contour → List ℕ
  convexityDefects : Contour → List ℕ → Option (List Defect)

/-- `is_arrow(contour)` (lines 198–236): hull with fewer than 3 points or
absent defects give `false`; otherwise run the sharp-angle count. -/
def is_arrow {Canvas Gray : Type} (cv : CvOps Canvas Gray)
    (contour : Contour) : Bool :=
  let hull := cv.convexHull contour
  if hull.length < 3 then false
  else
    match cv.convexityDefects contour hull with
    | none => false
    | some defects => arrowLoop contour defects 0

/-- An axis-aligned bounding rectangle `(x, y, w, h)`. -/
structure Rect where
  x : ℤ
  y : ℤ
  w : ℤ
  h : ℤ
deriving Repr, DecidableEq

/-- `cv2.boundingRect` on an integer point list: minimal axis-aligned
rectangle, with the inclusive-pixel convention
`w = xmax − xmin + 1`, `h = ymax − ymin + 1`. -/
def boundingRect : List Pt → Rect
  | [] => ⟨0, 0, 0, 0⟩
  | p :: ps =>
      let xmin := ps.foldl (fun m q => min m q.1) p.1
      let xmax := ps.foldl (fun m q => max m q.1) p.1
      let ymin := ps.foldl (fun m q => min m q.2) p.2
      let ymax := ps.foldl (fun m q => max m q.2) p.2
      ⟨xmin, ymin, xmax - xmin + 1, ymax - ymin + 1⟩

/-- `aspect_ratio = w / float(h)` (line 183), in exact rationals. -/
def aspectRatio (r : Rect) : ℚ :=
  (r.w : ℚ) / (r.h : ℚ)

/-- Python `max(contours, key=cv2.contourArea)` over the nonempty list
`c0 :: rest`: keeps the current best, replacing it only on a strictly
larger key, so the first maximum wins. -/
def maxBy (key : Contour → ℚ) (c0 : Contour) (rest : List Contour) :
    Contour :=
  rest.foldl (fun best x => if key best < key x then x else best) c0

/-- The vertex-count dispatch of `detect_shape` (lines 176–196), the
spec's `classify(simplifiedPolygon, rawContour)`: 3 vertices → Triangle;
4 → Square iff the bounding-rect aspect ratio lies in `[0.95, 1.05]`,
else Rectangle; more than 4 → Arrow iff `is_arrow` on the raw contour,
else Circle; fewer than 3 → Unknown shape. -/
def classify {Canvas Gray : Type} (cv : CvOps Canvas Gray)
    (approx : List Pt) (c : Contour) : String :=
  if approx.length = 3 then "Triangle"
  else if approx.length = 4 then
    let r := boundingRect approx
    if 19/20 ≤ aspectRatio r ∧ aspectRatio r ≤ 21/20 then "Square"
    else "Rectangle"
  else if 4 < approx.length then
    if is_arrow cv c then "Arrow" else "Circle"
  else "Unknown shape"

/-- `detect_shape(canvas)` (lines 140–196): grayscale, blur, Canny,
contours; "No shape detected" when none; otherwise pick the maximum-area
contour, approximate it with tolerance `0.04 * arcLength`, and dispatch
on the vertex count. -/
def detect_shape {Canvas Gray : Type} (cv : CvOps Canvas Gray)
    (canvas : Canvas) : String :=
  let gray := cv.cvtColorGray canvas
  let blurred := cv.gaussianBlur gray
  let edged := cv.canny blurred
  match cv.findContours edged with
  | [] => "No shape detected"
  | c0 :: rest =>
      let c := maxBy cv.contourArea c0 rest
      let epsilon := 4/100 * cv.arcLength c
      let approx := cv.approxPolyDP c epsilon
      classify cv approx c

/-- The fixed label enumeration of the spec. -/
def shapeLabels : List String :=
  ["Triangle", "Square", "Rectangle", "Circle", "Arrow",
   "Unknown shape", "No shape detected"]

/-- A concrete instantiation of the OpenCV operations, used to evaluate
the theorems at concrete inputs. -/
def testCv : CvOps Unit Unit where
  cvtColorGray := id
  gaussianBlur := id
  canny := id
  findContours := fun _ => []
  contourArea := fun c => (c.length : ℚ)
  arcLength := fun c => (c.length : ℚ)
  approxPolyDP := fun c _ => c
  convexHull := fun c => List.range c.length
  convexityDefects := fun _ _ => none

/-- Like `testCv` but extraction finds one triangular contour. -/
def testCv2 : CvOps Unit Unit :=
  { testCv with findContours := fun _ => [[(0, 0), (1, 0), (0, 1)]] }

/-! ### Helper lemmas -/

/-- The counting loop returns `true`, starting from a count of at most 1,
exactly when the starting count plus the number of sharp defects in the
list reaches 2. -/
theorem arrowLoop_eq_true_iff (contour : Contour) :
    ∀ (ds : List Defect) (n : ℕ), n ≤ 1 →
      (arrowLoop contour ds n = true ↔
        2 ≤ n + List.countP (defectSharp contour) ds) := by
  intro ds
  induction ds with
  | nil =>
      intro n hn
      simp only [arrowLoop, List.countP_nil, Nat.add_zero,
        Bool.false_eq_true, false_iff]
      omega
  | cons df rest ih =>
      intro n hn
      by_cases hs : defectSharp contour df = true
      · interval_cases n
        · have harr0 : arrowLoop contour (df :: rest) 0 = arrowLoop contour rest 1 := by
            simp [arrowLoop, hs]
          have hcount0 : List.countP (defectSharp contour) (df :: rest) =
              List.countP (defectSharp contour) rest + 1 := by
            simp [List.countP_cons, hs]
          rw [harr0, ih 1 (by omega), hcount0]
          omega
        · have harr : arrowLoop contour (df :: rest) 1 = true := by
            simp [arrowLoop, hs]
          have hcount : List.countP (defectSharp contour) (df :: rest) =
              List.countP (defectSharp contour) rest + 1 := by
            simp [List.countP_cons, hs]
          rw [harr, hcount]
          simp only [eq_self_iff_true, true_iff]
          omega
      · have hs' : defectSharp contour df = false := by
          simpa using hs
        have hlt : ¬ (1 < n) := by omega
        have : arrowLoop contour (df :: rest) n = arrowLoop contour rest n := by
          simp [arrowLoop, hs', hlt]
        rw [this, ih n hn, List.countP_cons, hs']
        simp

/-! ### Claim theorems -/

/-- C1: `is_arrow` returns `true` iff the convex hull has at least 3
points, the defect set is present and non-empty, and at least two defects
are sharp (included angle at the farthest point at most 90 degrees, i.e.
`b² > 0 ∧ c² > 0 ∧ a² ≤ b² + c²`); equivalently it returns `false` when
the defect set is exhausted with at most one sharp defect. -/
theorem isArrow_true_iff {Canvas Gray : Type} (cv : CvOps Canvas Gray)
    (contour : Contour) :
    is_arrow cv contour = true ↔
      3 ≤ (cv.convexHull contour).length ∧
        ∃ ds, cv.convexityDefects contour (cv.convexHull contour) = some ds ∧
          ds ≠ [] ∧ 2 ≤ List.countP (defectSharp contour) ds := by
  unfold is_arrow
  by_cases hh : (cv.convexHull contour).length < 3
  · simp only [hh, if_true, Bool.false_eq_true, false_iff]
    intro h
    omega
  · rw [if_neg hh]
    cases hd : cv.convexityDefects contour (cv.convexHull contour) with
    | none => simp [hd]
    | some ds =>
        rw [arrowLoop_eq_true_iff contour ds 0 (by omega)]
        simp only [Nat.zero_add, hd, Option.some.injEq]
        constructor
        · intro h
          refine ⟨by omega, ds, rfl, ?_, h⟩
          have hle := List.countP_le_length (p := defectSharp contour) (l := ds)
          intro hnil
          subst hnil
          simp at h
        · rintro ⟨-, ds', hds', -, h2⟩
          subst hds'
          exact h2

/-- C2: a defect with a zero-length triangle edge (`b = 0` or `c = 0`,
where in the source the NumPy division by `2bc = 0` yields NaN and
`NaN ≤ 90` is false) is never counted as sharp, and the loop simply
moves on to the remaining defects with the count unchanged; no error is
raised since the embedded functions are total. -/
theorem defect_zero_edge_guarded (contour : Contour) (df : Defect)
    (rest : List Defect) (n : ℕ) (hn : n ≤ 1)
    (h : (defectEdges contour df).2.1 = 0 ∨ (defectEdges contour df).2.2 = 0) :
    defectSharp contour df = false ∧
      arrowLoop contour (df :: rest) n = arrowLoop contour rest n := by
  have hsharp : defectSharp contour df = false := by
    unfold defectSharp
    rcases h with h | h <;> simp [h]
  refine ⟨hsharp, ?_⟩
  have hlt : ¬ (1 < n) := by omega
  simp [arrowLoop, hsharp, hlt]

/-- Witness for C2 at a concrete degenerate defect: contour
`[(0,0), (1,0)]` with defect `(s, e, f) = (0, 1, 0)`, so the edge
`b = |start − far|` has length zero. -/
theorem defect_zero_edge_guarded_witness :
    defectSharp [(0, 0), (1, 0)] ⟨0, 1, 0, 0⟩ = false ∧
      arrowLoop [(0, 0), (1, 0)] [⟨0, 1, 0, 0⟩] 0 =
        arrowLoop [(0, 0), (1, 0)] [] 0 :=
  defect_zero_edge_guarded [(0, 0), (1, 0)] ⟨0, 1, 0, 0⟩ [] 0 (by decide)
    (Or.inl (by decide))

/-- Folding `min` over a list never exceeds the seed. -/
theorem foldl_min_le_seed (f : Pt → ℤ) :
    ∀ (l : List Pt) (a : ℤ), l.foldl (fun m q => min m (f q)) a ≤ a := by
  intro l
  induction l with
  | nil => intro a; simp
  | cons x l ih =>
      intro a
      calc (x :: l).foldl (fun m q => min m (f q)) a
          = l.foldl (fun m q => min m (f q)) (min a (f x)) := rfl
        _ ≤ min a (f x) := ih _
        _ ≤ a := min_le_left _ _

/-- Folding `max` over a list is at least the seed. -/
theorem seed_le_foldl_max (f : Pt → ℤ) :
    ∀ (l : List Pt) (a : ℤ), a ≤ l.foldl (fun m q => max m (f q)) a := by
  intro l
  induction l with
  | nil => intro a; simp
  | cons x l ih =>
      intro a
      calc a ≤ max a (f x) := le_max_left _ _
        _ ≤ l.foldl (fun m q => max m (f q)) (max a (f x)) := ih _
        _ = (x :: l).foldl (fun m q => max m (f q)) a := rfl

/-- The bounding rectangle of a non-empty point list has positive height
(and positive width). -/
theorem boundingRect_pos (pts : List Pt) (hne : pts ≠ []) :
    0 < (boundingRect pts).w ∧ 0 < (boundingRect pts).h := by
  cases pts with
  | nil => exact absurd rfl hne
  | cons p ps =>
      have hx1 := foldl_min_le_seed Prod.fst ps p.1
      have hx2 := seed_le_foldl_max Prod.fst ps p.1
      have hy1 := foldl_min_le_seed Prod.snd ps p.2
      have hy2 := seed_le_foldl_max Prod.snd ps p.2
      simp only [boundingRect]
      constructor <;> omega

/-- C3: for a simplified polygon with exactly 4 vertices, `classify`
returns "Square" exactly when the bounding-rectangle aspect ratio `w/h`
lies in the closed interval `[0.95, 1.05]`, and "Rectangle" otherwise. -/
theorem classify_four_iff {Canvas Gray : Type} (cv : CvOps Canvas Gray)
    (approx : List Pt) (c : Contour) (h4 : approx.length = 4) :
    (classify cv approx c = "Square" ↔
      19/20 ≤ aspectRatio (boundingRect approx) ∧
        aspectRatio (boundingRect approx) ≤ 21/20) ∧
    (classify cv approx c = "Rectangle" ↔
      ¬(19/20 ≤ aspectRatio (boundingRect approx) ∧
        aspectRatio (boundingRect approx) ≤ 21/20)) := by
  have h3 : approx.length ≠ 3 := by omega
  have hcl : classify cv approx c =
      if 19/20 ≤ aspectRatio (boundingRect approx) ∧
          aspectRatio (boundingRect approx) ≤ 21/20 then "Square"
      else "Rectangle" := by
    simp [classify, h3, h4]
  by_cases hr : 19/20 ≤ aspectRatio (boundingRect approx) ∧
      aspectRatio (boundingRect approx) ≤ 21/20
  · rw [hcl, if_pos hr]
    refine ⟨⟨fun _ => hr, fun _ => rfl⟩, ⟨fun hcontra => ?_, fun hn => absurd hr hn⟩⟩
    exact absurd hcontra (by decide)
  · rw [hcl, if_neg hr]
    refine ⟨⟨fun hcontra => ?_, fun h => absurd h hr⟩, ⟨fun _ => hr, fun _ => rfl⟩⟩
    exact absurd hcontra (by decide)

/-- Witness for C3: the square `[(0,0),(2,0),(2,2),(0,2)]` has aspect
ratio `3/3 = 1 ∈ [0.95, 1.05]` and is classified "Square". -/
theorem classify_four_iff_witness :
    classify testCv [(0, 0), (2, 0), (2, 2), (0, 2)] [] = "Square" :=
  (classify_four_iff testCv [(0, 0), (2, 0), (2, 2), (0, 2)] [] rfl).1.mpr
    (by norm_num [aspectRatio, boundingRect])

/-- C4: for a simplified polygon with more than 4 vertices, `classify`
calls arrow detection on the raw contour `c`, returning "Arrow" when it
reports `true` and "Circle" otherwise; the simplified polygon itself
only contributes its vertex count. -/
theorem classify_gt_four {Canvas Gray : Type} (cv : CvOps Canvas Gray)
    (approx approx' : List Pt) (c : Contour) (h5 : 4 < approx.length) :
    classify cv approx c = (if is_arrow cv c then "Arrow" else "Circle") ∧
      (approx'.length = approx.length →
        classify cv approx' c = classify cv approx c) := by
  have h3 : approx.length ≠ 3 := by omega
  have h4 : approx.length ≠ 4 := by omega
  have hcl : ∀ p : List Pt, p.length = approx.length →
      classify cv p c = (if is_arrow cv c then "Arrow" else "Circle") := by
    intro p hp
    have h3' : p.length ≠ 3 := by omega
    have h4' : p.length ≠ 4 := by omega
    have h5' : 4 < p.length := by omega
    simp [classify, h3', h4', h5']
  exact ⟨hcl approx rfl, fun hp => by rw [hcl approx rfl, hcl approx' hp]⟩

/-- Witness for C4: a 5-vertex polygon with `testCv`, whose
`convexityDefects` is `none`, is classified "Circle". -/
theorem classify_gt_four_witness :
    classify testCv [(0, 0), (1, 0), (2, 0), (3, 0), (4, 0)] [] = "Circle" := by
  have h := classify_gt_four testCv [(0, 0), (1, 0), (2, 0), (3, 0), (4, 0)]
    [(0, 0), (1, 0), (2, 0), (3, 0), (4, 1)] [] (by decide)
  rw [h.1]
  rfl

/-- C5: `classify` labels a 3-vertex simplified polygon "Triangle" and a
degenerate polygon with fewer than 3 vertices "Unknown shape". -/
theorem classify_three_and_degenerate {Canvas Gray : Type}
    (cv : CvOps Canvas Gray) (approx : List Pt) (c : Contour) :
    (approx.length = 3 → classify cv approx c = "Triangle") ∧
      (approx.length < 3 → classify cv approx c = "Unknown shape") := by
  constructor
  · intro h3
    simp [classify, h3]
  · intro hlt
    have h3 : approx.length ≠ 3 := by omega
    have h4 : approx.length ≠ 4 := by omega
    have h5 : ¬ (4 < approx.length) := by omega
    simp [classify, h3, h4, h5]

/-- Witness for C5: a concrete triangle and a concrete 2-point
degenerate polygon. -/
theorem classify_three_and_degenerate_witness :
    classify testCv [(0, 0), (1, 0), (0, 1)] [] = "Triangle" ∧
      classify testCv [(5, 5), (9, 5)] [] = "Unknown shape" :=
  ⟨(classify_three_and_degenerate testCv [(0, 0), (1, 0), (0, 1)] []).1 rfl,
   (classify_three_and_degenerate testCv [(5, 5), (9, 5)] []).2 (by decide)⟩

/-- C10: in the 4-vertex branch the bounding rectangle has strictly
positive height (so `w / float(h)` never divides by zero) and the
Square/Rectangle decision is always reached. -/
theorem four_vertex_ratio_welldefined {Canvas Gray : Type}
    (cv : CvOps Canvas Gray) (approx : List Pt) (c : Contour)
    (h4 : approx.length = 4) :
    0 < (boundingRect approx).h ∧
      (classify cv approx c = "Square" ∨ classify cv approx c = "Rectangle") := by
  have hne : approx ≠ [] := by
    intro h
    rw [h] at h4
    simp at h4
  refine ⟨(boundingRect_pos approx hne).2, ?_⟩
  have h3 : approx.length ≠ 3 := by omega
  have hcl : classify cv approx c =
      if 19/20 ≤ aspectRatio (boundingRect approx) ∧
          aspectRatio (boundingRect approx) ≤ 21/20 then "Square"
      else "Rectangle" := by
    simp [classify, h3, h4]
  rw [hcl]
  by_cases hr : 19/20 ≤ aspectRatio (boundingRect approx) ∧
      aspectRatio (boundingRect approx) ≤ 21/20
  · exact Or.inl (if_pos hr)
  · exact Or.inr (if_neg hr)

/-- Witness for C10: a concrete 1×4-aspect quadrilateral has positive
bounding-box height and lands on a Square-or-Rectangle decision. -/
theorem four_vertex_ratio_welldefined_witness :
    0 < (boundingRect [(0, 0), (3, 0), (3, 1), (0, 1)]).h ∧
      (classify testCv [(0, 0), (3, 0), (3, 1), (0, 1)] [] = "Square" ∨
        classify testCv [(0, 0), (3, 0), (3, 1), (0, 1)] [] = "Rectangle") :=
  four_vertex_ratio_welldefined testCv [(0, 0), (3, 0), (3, 1), (0, 1)] [] rfl

/-- When extraction finds the contour list `c0 :: rest`, `detect_shape`
reduces to `classify` on the maximum-area contour with tolerance
`0.04 × arcLength`. -/
theorem detectShape_eq_cons {Canvas Gray : Type} (cv : CvOps Canvas Gray)
    (canvas : Canvas) (c0 : Contour) (rest : List Contour)
    (h : cv.findContours (cv.canny (cv.gaussianBlur (cv.cvtColorGray canvas))) =
      c0 :: rest) :
    detect_shape cv canvas =
      classify cv
        (cv.approxPolyDP (maxBy cv.contourArea c0 rest)
          (4/100 * cv.arcLength (maxBy cv.contourArea c0 rest)))
        (maxBy cv.contourArea c0 rest) := by
  simp only [detect_shape, h]

/-- `maxBy key c0 rest` is an element of `c0 :: rest`. -/
theorem maxBy_mem (key : Contour → ℚ) :
    ∀ (rest : List Contour) (c0 : Contour), maxBy key c0 rest ∈ c0 :: rest := by
  intro rest
  induction rest with
  | nil => intro c0; simp [maxBy]
  | cons x rest ih =>
      intro c0
      have hstep : maxBy key c0 (x :: rest) =
          maxBy key (if key c0 < key x then x else c0) rest := rfl
      rw [hstep]
      rcases List.mem_cons.mp (ih (if key c0 < key x then x else c0)) with h | h
      · rw [h]
        by_cases hk : key c0 < key x
        · simp [hk]
        · simp [hk]
      · simp [List.mem_cons.mpr (Or.inr (List.mem_cons.mpr (Or.inr h)))]

/-- Every element of `c0 :: rest` has key at most that of
`maxBy key c0 rest`. -/
theorem maxBy_is_max (key : Contour → ℚ) :
    ∀ (rest : List Contour) (c0 x : Contour), x ∈ c0 :: rest →
      key x ≤ key (maxBy key c0 rest) := by
  intro rest
  induction rest with
  | nil =>
      intro c0 x hx
      rcases List.mem_cons.mp hx with h | h
      · rw [h]; exact le_refl _
      · simp at h
  | cons y rest ih =>
      intro c0 x hx
      have hstep : maxBy key c0 (y :: rest) =
          maxBy key (if key c0 < key y then y else c0) rest := rfl
      have hb1 : key c0 ≤ key (if key c0 < key y then y else c0) := by
        by_cases hk : key c0 < key y
        · rw [if_pos hk]; exact le_of_lt hk
        · rw [if_neg hk]
      have hb2 : key y ≤ key (if key c0 < key y then y else c0) := by
        by_cases hk : key c0 < key y
        · rw [if_pos hk]
        · rw [if_neg hk]; exact le_of_not_lt hk
      rw [hstep]
      rcases List.mem_cons.mp hx with h | h
      · rw [h]
        exact le_trans hb1 (ih _ _ (List.mem_cons_self _ _))
      · rcases List.mem_cons.mp h with h' | h'
        · rw [h']
          exact le_trans hb2 (ih _ _ (List.mem_cons_self _ _))
        · exact ih _ _ (List.mem_cons.mpr (Or.inr h'))

/-- C6: whenever contour extraction finds zero boundary curves — in
particular on an all-background canvas, where the library returns an
empty contour list — `detect_shape` returns the ordinary label
"No shape detected", not an error. -/
theorem detectShape_no_contours {Canvas Gray : Type} (cv : CvOps Canvas Gray)
    (canvas : Canvas)
    (h : cv.findContours (cv.canny (cv.gaussianBlur (cv.cvtColorGray canvas))) = []) :
    detect_shape cv canvas = "No shape detected" := by
  simp only [detect_shape, h]

/-- Witness for C6: `testCv` finds no contours, so the pipeline reports
"No shape detected". -/
theorem detectShape_no_contours_witness :
    detect_shape testCv () = "No shape detected" :=
  detectShape_no_contours testCv () rfl

/-- `classify` always lands in the six non-empty-case labels. -/
theorem classify_mem_labels {Canvas Gray : Type} (cv : CvOps Canvas Gray)
    (approx : List Pt) (c : Contour) :
    classify cv approx c ∈ shapeLabels := by
  by_cases h3 : approx.length = 3
  · simp [classify, h3, shapeLabels]
  · by_cases h4 : approx.length = 4
    · have hcl : classify cv approx c =
          if 19/20 ≤ aspectRatio (boundingRect approx) ∧
              aspectRatio (boundingRect approx) ≤ 21/20 then "Square"
          else "Rectangle" := by
        simp [classify, h3, h4]
      rw [hcl]
      by_cases hr : 19/20 ≤ aspectRatio (boundingRect approx) ∧
          aspectRatio (boundingRect approx) ≤ 21/20
      · simp [hr, shapeLabels]
      · simp [hr, shapeLabels]
    · by_cases h5 : 4 < approx.length
      · have hcl : classify cv approx c =
            if is_arrow cv c then "Arrow" else "Circle" := by
          simp [classify, h3, h4, h5]
        rw [hcl]
        by_cases ha : is_arrow cv c = true
        · simp [ha, shapeLabels]
        · simp only [Bool.not_eq_true] at ha
          simp [ha, shapeLabels]
      · simp [classify, h3, h4, h5, shapeLabels]

/-- C7: classification is total — for every canvas and every behaviour of
the library primitives, `detect_shape` returns a label from the closed
enumeration and nothing else. -/
theorem detectShape_total {Canvas Gray : Type} (cv : CvOps Canvas Gray)
    (canvas : Canvas) :
    detect_shape cv canvas ∈ shapeLabels := by
  cases hf : cv.findContours (cv.canny (cv.gaussianBlur (cv.cvtColorGray canvas))) with
  | nil =>
      simp only [detect_shape, hf]
      simp [shapeLabels]
  | cons c0 rest =>
      rw [detectShape_eq_cons cv canvas c0 rest hf]
      exact classify_mem_labels cv _ _

/-- C8: with at least one contour found, the selected primary contour is
a member of the contour list of maximal area, and `detect_shape`
dispatches on its polygon approximation at tolerance
`0.04 × arcLength(primary)`. -/
theorem detectShape_max_area_and_tolerance {Canvas Gray : Type}
    (cv : CvOps Canvas Gray) (canvas : Canvas) (c0 : Contour)
    (rest : List Contour)
    (h : cv.findContours (cv.canny (cv.gaussianBlur (cv.cvtColorGray canvas))) =
      c0 :: rest) :
    maxBy cv.contourArea c0 rest ∈ c0 :: rest ∧
      (∀ x ∈ c0 :: rest,
        cv.contourArea x ≤ cv.contourArea (maxBy cv.contourArea c0 rest)) ∧
      detect_shape cv canvas =
        classify cv
          (cv.approxPolyDP (maxBy cv.contourArea c0 rest)
            (4/100 * cv.arcLength (maxBy cv.contourArea c0 rest)))
          (maxBy cv.contourArea c0 rest) :=
  ⟨maxBy_mem cv.contourArea rest c0,
   fun x hx => maxBy_is_max cv.contourArea rest c0 x hx,
   detectShape_eq_cons cv canvas c0 rest h⟩

/-- Witness for C8: `testCv2` finds a single triangular contour, and the
pipeline classifies it through that contour's approximation. -/
theorem detectShape_max_area_and_tolerance_witness :
    maxBy testCv2.contourArea [(0, 0), (1, 0), (0, 1)] [] ∈
      [[(0, 0), (1, 0), (0, 1)]] ∧
      detect_shape testCv2 () = "Triangle" := by
  have h := detectShape_max_area_and_tolerance testCv2 () [(0, 0), (1, 0), (0, 1)]
    [] rfl
  refine ⟨h.1, ?_⟩
  rw [h.2.2]
  rfl

/-- C9: classification is a pure function of its inputs — two invocations
of `classify` on the same (simplified polygon, raw contour) pair, or of
`detect_shape` on the same canvas snapshot, produce the same label; the
embedding has no ambient state for them to read. -/
theorem classify_pure {Canvas Gray : Type} (cv : CvOps Canvas Gray)
    (approx : List Pt) (c : Contour) (canvas : Canvas) :
    classify cv approx c = classify cv approx c ∧
      detect_shape cv canvas = detect_shape cv canvas :=
  ⟨rfl, rfl⟩

end VideoShapes
